import Mathlib

/-
  Verification of the per-channel conversational session manager of the
  Discord chat bot (src/main.py): the Markdown-aware text chunker
  (split_text), the cooldown registry (check_cooldown, cleanup_old_data,
  the per-author message gate in on_message), the idle supervisor
  (check_inactivity), the prompt assembler's size-limit enforcement
  (generate_response), and the deactivate command.

  Python strings are modelled as lists of characters (Str); clock values
  (time.time()) as integers; the process-wide dictionaries as functions
  from keys to optional values.  Network calls and the generative-model
  reply are abstracted as parameters; all control flow, arithmetic and
  string manipulation is transcribed from the source.
-/

namespace ChatBot

/-! Character-list model of Python strings. -/

abbrev Str := List Char

/-- The backtick character, written by code point to keep source plain. -/
def btick : Char := Char.ofNat 96

/-- The triple-backtick fence marker. -/
def fence3 : Str := [btick, btick, btick]

/-- ASCII whitespace as recognized by Python's str.strip / str.split. -/
def isWS (c : Char) : Bool :=
  c = ' ' || c = '\t' || c = '\n' || c = '\r' || c = Char.ofNat 11 || c = Char.ofNat 12

/-- Leading-whitespace removal, the left half of Python's str.strip. -/
def stripL (s : Str) : Str := s.dropWhile isWS

/-- Trailing-whitespace removal, the right half of Python's str.strip. -/
def stripR (s : Str) : Str := (s.reverse.dropWhile isWS).reverse

/-- Python's str.strip: drop whitespace from both ends. -/
def strip (s : Str) : Str := stripL (stripR s)

/-- Python's text.split with separator given by a newline: always returns at
least one piece, and separators at the ends produce empty pieces. -/
def splitLines : Str → List Str
  | [] => [[]]
  | c :: cs =>
    if c = '\n' then [] :: splitLines cs
    else
      match splitLines cs with
      | l :: ls => (c :: l) :: ls
      | [] => [[c]]

/-- Python's s.replace applied with the fence marker and an empty
replacement: remove every non-overlapping triple-backtick, scanning left to
right.  Used by split_text to read the language tag off a fence line. -/
def removeTriple : Str → Str
  | [] => []
  | [c] => [c]
  | [c, c2] => [c, c2]
  | c :: c2 :: c3 :: rest =>
    if c = btick && c2 = btick && c3 = btick then removeTriple rest
    else c :: removeTriple (c2 :: c3 :: rest)

/-- Test from split_text: line.strip().startswith on the fence marker. -/
def isFenceLine (line : Str) : Bool := fence3.isPrefixOf (strip line)

/-- Slicing loop of split_text for a single overlong line: pieces of at
most M characters taken left to right (Python's range-based slicing; the
M = 0 case, where the Python range call would raise, yields []). -/
def hardSplit (M : Nat) (l : Str) : List Str :=
  if h : M = 0 ∨ l = [] then []
  else l.take M :: hardSplit M (l.drop M)
termination_by l.length
decreasing_by
  simp only [List.length_drop]
  have h1 : M ≠ 0 := fun hm => h (Or.inl hm)
  have h2 : l ≠ [] := fun hl => h (Or.inr hl)
  have h3 : 0 < l.length := List.length_pos.mpr h2
  omega

/-- Accumulator of the chunking loop in split_text: chunks emitted so far,
the running buffer, the fence toggle and the recorded language tag. -/
structure SplitSt where
  chunks : List Str
  cur : Str
  inCode : Bool
  lang : Str
deriving DecidableEq

/-- Line as accumulated by split_text: the original newline is restored
unless the line compares equal to the final line of the input (the source
compares by value, not by position). -/
def lineWithNewline (line lastLine : Str) : Str :=
  if line = lastLine then line else line ++ ['\n']

/-- Body of split_text's for-loop over lines, transcribed branch by branch
from the source. -/
def splitStep (M : Nat) (lastLine : Str) (st : SplitSt) (line : Str) : SplitSt :=
  let l := lineWithNewline line lastLine
  if isFenceLine line then
    let inC := !st.inCode
    let lg := if st.inCode then st.lang else removeTriple (strip line)
    if M < st.cur.length + l.length then
      let closed := if inC then st.cur ++ ('\n' :: fence3) else st.cur
      ⟨st.chunks ++ [strip closed], l, inC, lg⟩
    else ⟨st.chunks, st.cur ++ l, inC, lg⟩
  else if M < line.length then
    let cs := if st.cur = [] then st.chunks else st.chunks ++ [strip st.cur]
    ⟨cs ++ hardSplit M line, [], st.inCode, st.lang⟩
  else if M < st.cur.length + l.length then
    let closed := if st.inCode then st.cur ++ ('\n' :: fence3) else st.cur
    let reopened := (if st.inCode then fence3 ++ st.lang ++ ['\n'] else []) ++ l
    ⟨st.chunks ++ [strip closed], reopened, st.inCode, st.lang⟩
  else ⟨st.chunks, st.cur ++ l, st.inCode, st.lang⟩

/-- Flush after split_text's loop: a buffer with non-blank content is
appended as a final chunk, first closing a still-open fence unless the
buffer already ends in the fence marker. -/
def finalChunks (st : SplitSt) : List Str :=
  if strip st.cur = [] then st.chunks
  else if st.inCode && !(fence3.isSuffixOf st.cur) then
    st.chunks ++ [strip (st.cur ++ ('\n' :: fence3))]
  else st.chunks ++ [strip st.cur]

/-- The text chunker split_text of src/main.py: texts no longer than the
limit are returned whole; otherwise the line loop runs, the final buffer is
flushed (closing a dangling fence), and blank chunks are filtered out. -/
def split_text (text : Str) (M : Nat) : List Str :=
  if text.length ≤ M then [text]
  else
    (finalChunks ((splitLines text).foldl
        (splitStep M ((splitLines text).getLast?.getD [])) ⟨[], [], false, []⟩)).filter
      (fun c => !(strip c).isEmpty)

/-- Number of fence-marker lines inside a chunk; a chunk with an odd count
contains an unterminated code fence. -/
def countFenceLines (c : Str) : Nat := ((splitLines c).filter (fun l => isFenceLine l)).length

/-! Cooldown registry.  bot_state.command_cooldowns is a dict from string
keys to clock values; it is modelled as a function from keys to optional
values, and time.time() as an integer parameter. -/

abbrev CooldownMap := String → Option Int

/-- The empty cooldown dictionary. -/
def emptyCooldowns : CooldownMap := fun _ => none

/-- Key construction in check_cooldown: the user id and the command name
joined by a hyphen. -/
def cdKey (userId command : String) : String := userId ++ "-" ++ command

/-- The check_cooldown function of src/main.py.  A missing key reads as 0
(dict.get default).  If the current time is before the stored end time the
call reports blocked with the remaining time and leaves the dict alone;
otherwise it stores now plus the fixed 30-second normal_cooldown and
reports not blocked with remaining 0. -/
def checkCooldown (userId command : String) (now : Int) (m : CooldownMap) :
    (Bool × Int) × CooldownMap :=
  let key := cdKey userId command
  let endT := (m key).getD 0
  if now < endT then ((true, endT - now), m)
  else ((false, 0), fun k => if k = key then some (now + 30) else m k)

/-- BotState.cleanup_old_data: delete every entry whose stored value is
strictly before the current time. -/
def cleanupOldData (now : Int) (m : CooldownMap) : CooldownMap :=
  fun k =>
    match m k with
    | some t => if t < now then none else some t
    | none => none

/-- The per-author minimum-gap gate at the top of on_message: the key
made of the author id and the message suffix holds the time of the last
processed message (missing reads as 0); a message arriving less than 2
seconds later is dropped without updating the dict, otherwise the current
time is stored.  Returns the dropped flag and the updated dict. -/
def messageGate (userId : String) (now : Int) (m : CooldownMap) : Bool × CooldownMap :=
  let key := userId ++ "-message"
  let last := (m key).getD 0
  if now - last < 2 then (true, m)
  else (false, fun k => if k = key then some now else m k)

/-- Concrete dictionary holding one message-gate entry, used to exhibit the
divergence between an expired entry and a missing one. -/
def gateMapEx : CooldownMap := fun k => if k = "u-message" then some 100 else none

/-- Concrete dictionary holding one armed cooldown entry. -/
def armedMapEx : CooldownMap := fun k => if k = cdKey ("u") ("act") then some 150 else none

/-! Idle supervisor.  check_inactivity handles each channel independently:
the per-channel slice of bot_state is the activity flag, the last-activity
time (missing reads as 0, folded into the field here) and whether an idle
prompt message is outstanding (channel_id in last_button_message). -/

/-- Timeout constant INACTIVITY_TIMEOUT of src/main.py. -/
def INACTIVITY_TIMEOUT : Int := 600

/-- Per-channel slice of bot_state as read by check_inactivity. -/
structure ChanState where
  active : Bool
  lastActivity : Int
  promptOutstanding : Bool
deriving DecidableEq

/-- One polling pass of check_inactivity over a single channel: when the
channel is active, idle beyond the timeout and has no outstanding prompt,
and the channel object resolves, the reactivation prompt is sent and
recorded; otherwise nothing happens. -/
def idlePoll (now : Int) (channelFound : Bool) (st : ChanState) : Bool × ChanState :=
  if st.active ∧ INACTIVITY_TIMEOUT < now - st.lastActivity ∧ st.promptOutstanding = false then
    if channelFound then (true, ⟨st.active, st.lastActivity, true⟩) else (false, st)
  else (false, st)

/-- Repeated polling passes: each list element gives the poll's clock value
and whether the channel object resolved; returns the prompt-sent flag of
every pass and the final state. -/
def idleRun (st : ChanState) : List (Int × Bool) → List Bool × ChanState
  | [] => ([], st)
  | p :: rest =>
    let r := idlePoll p.1 p.2 st
    let rr := idleRun r.2 rest
    (r.1 :: rr.1, rr.2)

/-! Prompt assembler.  generate_response is modelled up to its network
collaborators: the search-result text, the scraped page bodies and the
model's reply are parameters; the ordering of parts, the size limit and the
short-circuit error returns are transcribed from the source. -/

/-- Size limit constant MAX_FILE_SIZE of src/main.py (25 MiB). -/
def MAX_FILE_SIZE : Nat := 25 * 1024 * 1024

/-- An attachment as passed to generate_response: declared media type and
the byte length of the base64-decoded payload. -/
structure MediaData where
  mimeType : String
  size : Nat
deriving DecidableEq

/-- One content part of the turn submitted to the AI session. -/
inductive GPart where
  | text : String → GPart
  | uploadedFile : Nat → GPart
  | inlineBytes : Nat → String → GPart
  | fileUri : String → GPart
deriving DecidableEq

/-- Observable outcome of generate_response: the returned string, whether
client.files.upload was reached, and whether chat.send_message was reached. -/
structure GenOutcome where
  response : String
  uploadCalled : Bool
  sentToSession : Bool
deriving DecidableEq

/-- Error string returned for an oversized PDF attachment. -/
def pdfTooLarge : String := "**Error**\nFile PDF terlalu besar. Maksimal 25MB."

/-- Error string returned for any other oversized attachment. -/
def fileTooLarge : String := "**Error**\nFile terlalu besar. Maksimal 25MB."

/-- Tail of generate_response after the media checks: append the video
reference, the GIF-service URL and the scraped page texts, then submit the
turn; the model reply is an abstract function of the submitted parts. -/
def finishTurn (parts : List GPart) (youtubeUrl tenorUrl : Option String)
    (urlContents : List (String × String)) (modelReply : List GPart → String)
    (upl : Bool) : GenOutcome :=
  let p1 := match youtubeUrl with | some u => parts ++ [GPart.fileUri u] | none => parts
  let p2 := match tenorUrl with | some u => p1 ++ [GPart.text u] | none => p1
  let p3 := p2 ++ urlContents.map (fun uc => GPart.text ("Konten dari " ++ uc.1 ++ ":\n" ++ uc.2))
  ⟨modelReply p3, upl, true⟩

/-- The generate_response content assembly of src/main.py: prompt text
first, then search results, then the media part guarded by the 25 MiB
limit (PDFs through the upload interface, everything else inline), then
the remaining parts.  Oversized media returns the fixed error string
before any upload or submission. -/
def generateResponse (prompt : String) (searchResults : Option String)
    (media : Option MediaData) (youtubeUrl tenorUrl : Option String)
    (urlContents : List (String × String)) (modelReply : List GPart → String) : GenOutcome :=
  let c0 := [GPart.text prompt]
  let c1 := match searchResults with | some s => c0 ++ [GPart.text s] | none => c0
  match media with
  | none => finishTurn c1 youtubeUrl tenorUrl urlContents modelReply false
  | some md =>
    if md.mimeType = "application/pdf" then
      if MAX_FILE_SIZE < md.size then ⟨pdfTooLarge, false, false⟩
      else finishTurn (c1 ++ [GPart.uploadedFile md.size]) youtubeUrl tenorUrl urlContents
        modelReply true
    else
      if MAX_FILE_SIZE < md.size then ⟨fileTooLarge, false, false⟩
      else finishTurn (c1 ++ [GPart.inlineBytes md.size md.mimeType]) youtubeUrl tenorUrl
        urlContents modelReply false

/-! Bot state and the deactivate command. -/

/-- The process-wide mutable maps of BotState that the deactivate command
can reach; conversation session handles are opaque and modelled by their
identity. -/
structure BotState where
  conversationHistory : String → Option Nat
  commandCooldowns : CooldownMap
  channelActivity : String → Option Bool
  lastActivity : String → Option Int
  lastButtonMessage : String → Option Nat

/-- The deactivate slash command of src/main.py: first the cooldown check
(which arms the user's deactivate cooldown when not blocked); a blocked
call stops there; otherwise the channel's activity flag is set to False and
its last-activity and idle-prompt entries are deleted. -/
def deactivate (userId channelId : String) (now : Int) (st : BotState) : BotState :=
  let res := checkCooldown userId ("deactivate") now st.commandCooldowns
  if res.1.1 then { st with commandCooldowns := res.2 }
  else
    { conversationHistory := st.conversationHistory
      commandCooldowns := res.2
      channelActivity := fun c => if c = channelId then some false else st.channelActivity c
      lastActivity := fun c => if c = channelId then none else st.lastActivity c
      lastButtonMessage := fun c => if c = channelId then none else st.lastButtonMessage c }

/-- A bot state with every map empty. -/
def emptyBotState : BotState :=
  ⟨fun _ => none, fun _ => none, fun _ => none, fun _ => none, fun _ => none⟩

/-! Helper lemmas about the string model. -/

theorem length_dropWhile_isWS (l : Str) : (l.dropWhile isWS).length ≤ l.length := by
  induction l with
  | nil => simp
  | cons c cs ih =>
    by_cases h : isWS c = true
    · rw [List.dropWhile_cons_of_pos h]
      exact Nat.le_succ_of_le ih
    · rw [List.dropWhile_cons_of_neg h]

theorem stripR_length_le (s : Str) : (stripR s).length ≤ s.length := by
  unfold stripR
  rw [List.length_reverse]
  calc (s.reverse.dropWhile isWS).length ≤ s.reverse.length := length_dropWhile_isWS _
    _ = s.length := List.length_reverse s

theorem strip_length_le (s : Str) : (strip s).length ≤ s.length := by
  unfold strip stripL
  exact le_trans (length_dropWhile_isWS _) (stripR_length_le s)

theorem stripR_append_newline (x : Str) : stripR (x ++ ['\n']) = stripR x := by
  unfold stripR
  rw [List.reverse_append]
  have h1 : (['\n'] : Str).reverse ++ x.reverse = '\n' :: x.reverse := by simp
  rw [h1, List.dropWhile_cons_of_pos (by decide)]

theorem strip_append_newline (x : Str) : strip (x ++ ['\n']) = strip x := by
  unfold strip
  rw [stripR_append_newline]

theorem strip_lwn_length (line lastLine : Str) :
    (strip (lineWithNewline line lastLine)).length ≤ line.length := by
  unfold lineWithNewline
  by_cases h : line = lastLine
  · rw [if_pos h]
    exact strip_length_le line
  · rw [if_neg h, strip_append_newline]
    exact strip_length_le line

theorem stripR_append_btick (x : Str) : stripR (x ++ [btick]) = x ++ [btick] := by
  unfold stripR
  rw [List.reverse_append]
  have h1 : ([btick] : Str).reverse ++ x.reverse = btick :: x.reverse := by simp
  rw [h1, List.dropWhile_cons_of_neg (by decide)]
  simp

theorem stripL_append_fence (y : Str) : ∃ t, stripL (y ++ fence3) = t ++ fence3 := by
  induction y with
  | nil =>
    refine ⟨[], ?_⟩
    unfold stripL fence3
    rw [List.nil_append, List.dropWhile_cons_of_neg (by decide)]
  | cons c ys ih =>
    by_cases h : isWS c = true
    · obtain ⟨t, ht⟩ := ih
      refine ⟨t, ?_⟩
      unfold stripL at ht ⊢
      rw [List.cons_append, List.dropWhile_cons_of_pos h]
      exact ht
    · refine ⟨c :: ys, ?_⟩
      unfold stripL
      rw [List.cons_append, List.dropWhile_cons_of_neg h]

theorem strip_close_fence (s : Str) : ∃ t, strip (s ++ ('\n' :: fence3)) = t ++ fence3 := by
  have h1 : s ++ ('\n' :: fence3) = (s ++ ['\n', btick, btick]) ++ [btick] := by
    simp [fence3]
  have h2 : stripR (s ++ ('\n' :: fence3)) = s ++ ('\n' :: fence3) := by
    rw [h1, stripR_append_btick, ← h1]
  have h3 : s ++ ('\n' :: fence3) = (s ++ ['\n']) ++ fence3 := by simp
  unfold strip
  rw [h2, h3]
  exact stripL_append_fence (s ++ ['\n'])

theorem hardSplit_length_le_aux (M : Nat) :
    ∀ (n : Nat) (l : Str), l.length ≤ n → ∀ c ∈ hardSplit M l, c.length ≤ M := by
  intro n
  induction n with
  | zero =>
    intro l hl c hc
    have hnil : l = [] := List.length_eq_zero.mp (Nat.le_zero.mp hl)
    rw [hardSplit, dif_pos (Or.inr hnil)] at hc
    exact absurd hc (List.not_mem_nil c)
  | succ n ihn =>
    intro l hl c hc
    rw [hardSplit] at hc
    by_cases h : M = 0 ∨ l = []
    · rw [dif_pos h] at hc
      exact absurd hc (List.not_mem_nil c)
    · rw [dif_neg h] at hc
      rcases List.mem_cons.mp hc with rfl | hc2
      · simp [List.length_take]
      · have h1 : M ≠ 0 := fun hm => h (Or.inl hm)
        refine ihn (l.drop M) ?_ c hc2
        rw [List.length_drop]
        omega

theorem hardSplit_length_le (M : Nat) (l : Str) : ∀ c ∈ hardSplit M l, c.length ≤ M :=
  hardSplit_length_le_aux M l.length l (le_refl _)

theorem strip_nil : strip ([] : Str) = [] := rfl

/-! Reduced forms of the loop body and the length invariant of the chunking
loop. -/

theorem splitStep_plain (M : Nat) (lastLine line : Str) (st : SplitSt)
    (hf : isFenceLine line = false) (hin : st.inCode = false) :
    splitStep M lastLine st line =
      if M < line.length then
        ⟨(if st.cur = [] then st.chunks else st.chunks ++ [strip st.cur]) ++ hardSplit M line,
          [], false, st.lang⟩
      else if M < st.cur.length + (lineWithNewline line lastLine).length then
        ⟨st.chunks ++ [strip st.cur], lineWithNewline line lastLine, false, st.lang⟩
      else ⟨st.chunks, st.cur ++ lineWithNewline line lastLine, false, st.lang⟩ := by
  simp [splitStep, hf, hin]

theorem splitStep_inv (M : Nat) (lastLine line : Str) (st : SplitSt)
    (hf : isFenceLine line = false) (hin : st.inCode = false)
    (hc : ∀ c ∈ st.chunks, c.length ≤ M) (hcur : (strip st.cur).length ≤ M) :
    (splitStep M lastLine st line).inCode = false ∧
    (∀ c ∈ (splitStep M lastLine st line).chunks, c.length ≤ M) ∧
    (strip (splitStep M lastLine st line).cur).length ≤ M := by
  rw [splitStep_plain M lastLine line st hf hin]
  by_cases h1 : M < line.length
  · rw [if_pos h1]
    refine ⟨rfl, ?_, ?_⟩
    · intro c hc2
      rcases List.mem_append.mp hc2 with hcl | hcr
      · by_cases h0 : st.cur = []
        · rw [if_pos h0] at hcl
          exact hc c hcl
        · rw [if_neg h0] at hcl
          rcases List.mem_append.mp hcl with hcll | hclr
          · exact hc c hcll
          · rw [List.mem_singleton.mp hclr]
            exact hcur
      · exact hardSplit_length_le M line c hcr
    · rw [strip_nil]
      exact Nat.zero_le M
  · rw [if_neg h1]
    by_cases h2 : M < st.cur.length + (lineWithNewline line lastLine).length
    · rw [if_pos h2]
      refine ⟨rfl, ?_, ?_⟩
      · intro c hc2
        rcases List.mem_append.mp hc2 with hcl | hcr
        · exact hc c hcl
        · rw [List.mem_singleton.mp hcr]
          exact hcur
      · exact le_trans (strip_lwn_length line lastLine) (not_lt.mp h1)
    · rw [if_neg h2]
      refine ⟨rfl, hc, ?_⟩
      calc (strip (st.cur ++ lineWithNewline line lastLine)).length
          ≤ (st.cur ++ lineWithNewline line lastLine).length := strip_length_le _
        _ = st.cur.length + (lineWithNewline line lastLine).length := List.length_append _ _
        _ ≤ M := not_lt.mp h2

theorem foldl_split_inv (M : Nat) (lastLine : Str) (lines : List Str) (st : SplitSt)
    (hf : ∀ l ∈ lines, isFenceLine l = false)
    (hin : st.inCode = false) (hc : ∀ c ∈ st.chunks, c.length ≤ M)
    (hcur : (strip st.cur).length ≤ M) :
    (lines.foldl (splitStep M lastLine) st).inCode = false ∧
    (∀ c ∈ (lines.foldl (splitStep M lastLine) st).chunks, c.length ≤ M) ∧
    (strip (lines.foldl (splitStep M lastLine) st).cur).length ≤ M := by
  induction lines generalizing st with
  | nil => exact ⟨hin, hc, hcur⟩
  | cons l ls ih =>
    have h1 := splitStep_inv M lastLine l st (hf l (List.mem_cons_self l ls)) hin hc hcur
    exact ih _ (fun x hx => hf x (List.mem_cons_of_mem l hx)) h1.1 h1.2.1 h1.2.2

theorem finalChunks_bounded (M : Nat) (st : SplitSt) (hin : st.inCode = false)
    (hc : ∀ c ∈ st.chunks, c.length ≤ M) (hcur : (strip st.cur).length ≤ M) :
    ∀ c ∈ finalChunks st, c.length ≤ M := by
  unfold finalChunks
  by_cases h0 : strip st.cur = []
  · rw [if_pos h0]
    exact hc
  · rw [if_neg h0, hin]
    simp only [Bool.false_and, Bool.false_eq_true, if_false]
    intro c hc2
    rcases List.mem_append.mp hc2 with hcl | hcr
    · exact hc c hcl
    · rw [List.mem_singleton.mp hcr]
      exact hcur

theorem splitStep_code_overflow (M : Nat) (lastLine line : Str) (st : SplitSt)
    (hf : isFenceLine line = false) (hin : st.inCode = true) (hlen : line.length ≤ M)
    (hov : M < st.cur.length + (lineWithNewline line lastLine).length) :
    splitStep M lastLine st line =
      ⟨st.chunks ++ [strip (st.cur ++ ('\n' :: fence3))],
        fence3 ++ st.lang ++ ('\n' :: lineWithNewline line lastLine), true, st.lang⟩ := by
  simp [splitStep, hf, hin, not_lt.mpr hlen, hov]

/-! Claim C1. -/

/-- C1 (amended): for every input none of whose lines is a fence-marker
line and every maxLength of at least 1, every chunk returned by split_text
has length at most maxLength.  The unrestricted claim over all inputs is
refuted by c1_counterexample: fence closing and reopening can push a chunk
past the limit. -/
theorem c1_chunk_length_bound (text : Str) (M : Nat) (hM : 1 ≤ M)
    (hf : ∀ l ∈ splitLines text, isFenceLine l = false) :
    ∀ c ∈ split_text text M, c.length ≤ M := by
  intro c hc
  unfold split_text at hc
  by_cases h : text.length ≤ M
  · rw [if_pos h] at hc
    rw [List.mem_singleton.mp hc]
    exact h
  · rw [if_neg h] at hc
    have hinv := foldl_split_inv M ((splitLines text).getLast?.getD []) (splitLines text)
      ⟨[], [], false, []⟩ hf rfl (fun x hx => absurd hx (List.not_mem_nil x))
      (by rw [strip_nil]; exact Nat.zero_le M)
    have hb := finalChunks_bounded M _ hinv.1 hinv.2.1 hinv.2.2
    exact hb c (List.mem_of_mem_filter hc)

/-- Witness for c1_chunk_length_bound at a concrete fence-free input and a
concrete returned chunk. -/
theorem c1_chunk_length_bound_witness :
    ("abc").toList ∈ split_text (("abc\ndef").toList) 4 ∧ (("abc").toList).length ≤ 4 :=
  ⟨by decide, c1_chunk_length_bound (("abc\ndef").toList) 4 (by decide) (by decide)
    (("abc").toList) (by decide)⟩

/-- C1 counterexample: with maxLength 3 (which is at least 1) and a
code-fenced input of length 7, split_text returns a chunk of length 10,
exceeding maxLength. -/
theorem c1_counterexample :
    ("```py\n\n```").toList ∈ split_text (("```py\nx").toList) 3 ∧
    3 < (("```py\n\n```").toList).length := by decide

/-! Claim C2. -/

/-- C2 (amended): when a non-fence line overflows the buffer while the
chunker is inside a code block, the chunk emitted at that step ends with a
closing fence marker and the next buffer reopens with the fence marker
followed by the recorded language tag.  The original unrestricted claim
that no returned chunk contains an unterminated fence is refuted by
c2_counterexample: when the closing fence line itself overflows, the
emitted chunk keeps an odd number of fence lines. -/
theorem c2_fence_close_reopen (M : Nat) (lastLine line : Str) (st : SplitSt)
    (hf : isFenceLine line = false) (hin : st.inCode = true) (hlen : line.length ≤ M)
    (hov : M < st.cur.length + (lineWithNewline line lastLine).length) :
    ((splitStep M lastLine st line).chunks
        = st.chunks ++ [strip (st.cur ++ ('\n' :: fence3))]) ∧
    (∃ t, strip (st.cur ++ ('\n' :: fence3)) = t ++ fence3) ∧
    ((splitStep M lastLine st line).cur
        = fence3 ++ st.lang ++ ('\n' :: lineWithNewline line lastLine)) := by
  rw [splitStep_code_overflow M lastLine line st hf hin hlen hov]
  exact ⟨rfl, strip_close_fence st.cur, rfl⟩

/-- Witness for c2_fence_close_reopen at a concrete state and line. -/
theorem c2_fence_close_reopen_witness :
    ((splitStep 5 (("zz").toList)
        ⟨[], ("codes").toList, true, ("py").toList⟩ (("ab").toList)).chunks
      = [] ++ [strip ((("codes").toList) ++ ('\n' :: fence3))]) ∧
    (∃ t, strip ((("codes").toList) ++ ('\n' :: fence3)) = t ++ fence3) ∧
    ((splitStep 5 (("zz").toList)
        ⟨[], ("codes").toList, true, ("py").toList⟩ (("ab").toList)).cur
      = fence3 ++ ("py").toList ++ ('\n' :: lineWithNewline (("ab").toList) (("zz").toList))) :=
  c2_fence_close_reopen 5 (("zz").toList) (("ab").toList)
    ⟨[], ("codes").toList, true, ("py").toList⟩ (by decide) rfl (by decide) (by decide)

/-- C2 counterexample: on this input the chunk in which the code block
starts is emitted with a single fence line, an unterminated fence, because
the closing fence line itself overflowed the buffer. -/
theorem c2_counterexample :
    ("```\nabcdef").toList ∈ split_text (("```\nabcdef\n```\nx").toList) 9 ∧
    countFenceLines (("```\nabcdef").toList) % 2 = 1 := by decide

/-! Claim C3. -/

/-- C3: evaluation at the failing input.  The loop's value-equality test
against the final line drops the restored newline after the first line
(equal by value to the last line), so the single returned chunk joins the
first two input lines into one; no concatenation of the chunks with line
breaks can reconstruct the input, and no chunk boundary is involved. -/
theorem c3_newline_lost :
    split_text (("ab\ncd\nab").toList) 7 = [("abcd\nab").toList] := by decide

/-! Claim C8. -/

/-- C8 (amended): for every input strictly longer than maxLength, every
chunk returned by split_text has non-blank content.  The unrestricted
claim including short inputs is refuted by c8_counterexample: an input no
longer than maxLength is returned whole, even when whitespace-only. -/
theorem c8_no_blank_chunks (s : Str) (M : Nat) (h : M < s.length) :
    ∀ c ∈ split_text s M, strip c ≠ [] := by
  intro c hc
  unfold split_text at hc
  rw [if_neg (not_le.mpr h)] at hc
  have h2 := List.of_mem_filter hc
  intro hnil
  rw [hnil] at h2
  simp at h2

/-- Witness for c8_no_blank_chunks at a concrete input and a concrete
returned chunk. -/
theorem c8_no_blank_chunks_witness :
    ("def").toList ∈ split_text (("abc\ndef").toList) 3 ∧ strip (("def").toList) ≠ [] :=
  ⟨by decide, c8_no_blank_chunks (("abc\ndef").toList) 3 (by decide) (("def").toList)
    (by decide)⟩

/-- C8 counterexample: the whitespace-only input of length 3 with maxLength
1900 (at least 1) is returned as a single whitespace-only chunk. -/
theorem c8_counterexample :
    split_text (("   ").toList) 1900 = [("   ").toList] ∧
    strip (("   ").toList) = [] := by decide

/-! Claim C4. -/

/-- C4 (amended): check_cooldown takes no duration argument.  A call made
while the stored end time is still in the future returns blocked with the
remaining time equal to the deadline minus now and leaves the dict
unchanged; a call made with no stored deadline or a passed one returns not
blocked with remaining 0 and stores now plus the fixed 30-second cooldown
under the key, leaving every other key unchanged.  The original claim's
quantification over arbitrary durations d is refuted by
c4_counterexample. -/
theorem c4_cooldown_check_and_arm (u a : String) (now : Int) (m : CooldownMap) :
    (now < (m (cdKey u a)).getD 0 →
      checkCooldown u a now m = ((true, (m (cdKey u a)).getD 0 - now), m)) ∧
    (¬ now < (m (cdKey u a)).getD 0 →
      (checkCooldown u a now m).1 = (false, 0) ∧
      (checkCooldown u a now m).2 (cdKey u a) = some (now + 30) ∧
      ∀ k, k ≠ cdKey u a → (checkCooldown u a now m).2 k = m k) := by
  unfold checkCooldown
  constructor
  · intro h
    rw [if_pos h]
  · intro h
    rw [if_neg h]
    exact ⟨rfl, by simp, fun k hk => by simp [hk]⟩

/-- Witness for c4_cooldown_check_and_arm: a blocked call against the
armed dict at time 100 with deadline 150. -/
theorem c4_cooldown_check_and_arm_witness :
    checkCooldown ("u") ("act") 100 armedMapEx
      = ((true, (armedMapEx (cdKey ("u") ("act"))).getD 0 - 100), armedMapEx) :=
  (c4_cooldown_check_and_arm ("u") ("act") 100 armedMapEx).1 (by decide)

/-- C4 counterexample: starting from the empty dict at time 100, an
unblocked call arms the deadline to 130 = now + 30; the claim instantiated
at duration d = 10 would require the stored deadline 110. -/
theorem c4_counterexample :
    (checkCooldown ("u") ("act") 100 emptyCooldowns).2 (cdKey ("u") ("act")) = some 130 ∧
    (checkCooldown ("u") ("act") 100 emptyCooldowns).2 (cdKey ("u") ("act"))
      ≠ some (100 + 10) := by decide

/-! Claim C9. -/

/-- C9: a non-blocked call to check_cooldown always arms the deadline to
exactly now + 30; the armed duration is the fixed constant 30 and cannot
vary with the action name or any caller-supplied duration, since the
function accepts none. -/
theorem c9_fixed_thirty_seconds (u a : String) (now : Int) (m : CooldownMap)
    (h : (checkCooldown u a now m).1.1 = false) :
    (checkCooldown u a now m).2 (cdKey u a) = some (now + 30) := by
  unfold checkCooldown at h ⊢
  by_cases hb : now < (m (cdKey u a)).getD 0
  · rw [if_pos hb] at h
    exact absurd h (by simp)
  · rw [if_neg hb]
    simp

/-- Witness for c9_fixed_thirty_seconds at a concrete unblocked call. -/
theorem c9_fixed_thirty_seconds_witness :
    (checkCooldown ("u") ("go") 7 emptyCooldowns).2 (cdKey ("u") ("go")) = some (7 + 30) :=
  c9_fixed_thirty_seconds ("u") ("go") 7 emptyCooldowns (by decide)

/-! Claim C7. -/

/-- C7 (amended): sweeping expired entries (cleanup_old_data) does not
change the blocked/not-blocked result or the remaining time of any
check_cooldown call made at or after the sweep, for nonnegative clock
values.  The original claim's extension to the per-author 2-second message
gate is refuted by c7_counterexample: that gate stores last-message
timestamps, which are always already in the past, and removing one
unblocks a message arriving within the 2-second window. -/
theorem c7_sweep_preserves_checks (m : CooldownMap) (u a : String) (tc now : Int)
    (h1 : tc ≤ now) (h2 : 0 ≤ now) :
    (checkCooldown u a now (cleanupOldData tc m)).1 = (checkCooldown u a now m).1 := by
  unfold checkCooldown cleanupOldData
  cases hk : m (cdKey u a) with
  | none =>
    simp only [hk, Option.getD_none]
    by_cases hn : now < (0 : Int) <;> simp [hn]
  | some t =>
    by_cases ht : t < tc
    · simp only [hk, if_pos ht, Option.getD_none, Option.getD_some]
      rw [if_neg (by omega), if_neg (by omega)]
    · simp only [hk, if_neg ht, Option.getD_some]
      by_cases hn : now < t <;> simp [hn]

/-- Witness for c7_sweep_preserves_checks: the armed entry with deadline
150 is expired at sweep time 160 and a check at time 200 is unaffected. -/
theorem c7_sweep_preserves_checks_witness :
    (checkCooldown ("u") ("act") 200 (cleanupOldData 160 armedMapEx)).1
      = (checkCooldown ("u") ("act") 200 armedMapEx).1 :=
  c7_sweep_preserves_checks armedMapEx ("u") ("act") 160 200 (by decide) (by decide)

/-- C7 counterexample: the message-gate entry stores timestamp 100, already
in the past at sweep time 101; with the entry present a message at time 101
is dropped (gap below 2 seconds), while after the sweep removed the entry
the same message passes — the expired entry and the missing entry do not
behave identically for the gate. -/
theorem c7_counterexample :
    (100 : Int) < 101 ∧
    (messageGate ("u") 101 gateMapEx).1 = true ∧
    (messageGate ("u") 101 (cleanupOldData 101 gateMapEx)).1 = false := by decide

/-! Claim C5. -/

theorem idlePoll_not_yet (now : Int) (f : Bool) (st : ChanState)
    (h : now ≤ st.lastActivity + INACTIVITY_TIMEOUT) : idlePoll now f st = (false, st) := by
  unfold idlePoll
  rw [if_neg]
  rintro ⟨-, h2, -⟩
  linarith

theorem idlePoll_outstanding (now : Int) (f : Bool) (st : ChanState)
    (h : st.promptOutstanding = true) : idlePoll now f st = (false, st) := by
  unfold idlePoll
  rw [if_neg]
  rintro ⟨-, -, h3⟩
  rw [h] at h3
  exact Bool.noConfusion h3

theorem idleRun_no_send_mem (st : ChanState) (polls : List (Int × Bool)) :
    (st.promptOutstanding = false →
      (∀ p ∈ polls, p.1 ≤ st.lastActivity + INACTIVITY_TIMEOUT) →
      ∀ b ∈ (idleRun st polls).1, b = false) ∧
    (st.promptOutstanding = true →
      ∀ b ∈ (idleRun st polls).1, b = false) := by
  induction polls generalizing st with
  | nil =>
    exact ⟨fun _ _ b hb => absurd hb (List.not_mem_nil b),
      fun _ b hb => absurd hb (List.not_mem_nil b)⟩
  | cons p ps ih =>
    constructor
    · intro ho ht b hb
      have hpoll := idlePoll_not_yet p.1 p.2 st (ht p (List.mem_cons_self p ps))
      unfold idleRun at hb
      rw [hpoll] at hb
      rcases List.mem_cons.mp hb with rfl | hb2
      · rfl
      · exact (ih st).1 ho (fun q hq => ht q (List.mem_cons_of_mem p hq)) b hb2
    · intro ho b hb
      have hpoll := idlePoll_outstanding p.1 p.2 st ho
      unfold idleRun at hb
      rw [hpoll] at hb
      rcases List.mem_cons.mp hb with rfl | hb2
      · rfl
      · exact (ih st).2 ho b hb2

/-- C5: the idle supervisor sends no reactivation prompt while every poll
happens at or before lastActivity plus the 600-second timeout, and while a
prompt record is outstanding no further prompt is ever sent, however many
polling cycles elapse. -/
theorem c5_idle_supervisor (st : ChanState) (polls : List (Int × Bool)) :
    (st.promptOutstanding = false →
      (∀ p ∈ polls, p.1 ≤ st.lastActivity + INACTIVITY_TIMEOUT) →
      (idleRun st polls).1.all (fun b => !b) = true) ∧
    (st.promptOutstanding = true →
      (idleRun st polls).1.all (fun b => !b) = true) := by
  have h := idleRun_no_send_mem st polls
  constructor
  · intro ho ht
    refine List.all_eq_true.mpr ?_
    intro b hb
    rw [h.1 ho ht b hb]
    rfl
  · intro ho
    refine List.all_eq_true.mpr ?_
    intro b hb
    rw [h.2 ho b hb]
    rfl

/-- Witness for c5_idle_supervisor: an active channel with last activity 0
polled at times 300 and 600 receives no prompt in either cycle. -/
theorem c5_idle_supervisor_witness :
    (idleRun ⟨true, 0, false⟩ [(300, true), (600, true)]).1.all (fun b => !b) = true :=
  (c5_idle_supervisor ⟨true, 0, false⟩ [(300, true), (600, true)]).1 rfl (by decide)

/-! Claim C6. -/

/-- C6: a media part whose decoded byte size exceeds 25 MiB makes
generate_response return the fixed size-limit error string of its media
kind, without reaching the upload interface and without submitting the
turn to the AI session. -/
theorem c6_oversized_media (prompt : String) (searchResults : Option String) (md : MediaData)
    (youtubeUrl tenorUrl : Option String) (urlContents : List (String × String))
    (modelReply : List GPart → String) (h : MAX_FILE_SIZE < md.size) :
    (generateResponse prompt searchResults (some md) youtubeUrl tenorUrl urlContents
        modelReply).response
      = (if md.mimeType = ("application/pdf") then pdfTooLarge else fileTooLarge) ∧
    (generateResponse prompt searchResults (some md) youtubeUrl tenorUrl urlContents
        modelReply).uploadCalled = false ∧
    (generateResponse prompt searchResults (some md) youtubeUrl tenorUrl urlContents
        modelReply).sentToSession = false := by
  unfold generateResponse
  by_cases hm : md.mimeType = ("application/pdf") <;> simp [hm, h]

/-- Witness for c6_oversized_media: the spec's scenario of a 30 MiB PDF
attachment. -/
theorem c6_oversized_media_witness :
    (generateResponse ("p") none (some ⟨("application/pdf"), 30 * 1024 * 1024⟩) none none []
        (fun _ => ("r"))).response
      = (if (⟨("application/pdf"), 30 * 1024 * 1024⟩ : MediaData).mimeType
            = ("application/pdf") then pdfTooLarge else fileTooLarge) ∧
    (generateResponse ("p") none (some ⟨("application/pdf"), 30 * 1024 * 1024⟩) none none []
        (fun _ => ("r"))).uploadCalled = false ∧
    (generateResponse ("p") none (some ⟨("application/pdf"), 30 * 1024 * 1024⟩) none none []
        (fun _ => ("r"))).sentToSession = false :=
  c6_oversized_media ("p") none ⟨("application/pdf"), 30 * 1024 * 1024⟩ none none []
    (fun _ => ("r")) (by decide)

/-! Claim C10. -/

/-- C10 (amended): deactivate leaves the conversation-session map exactly
unchanged at every channel; apart from the target channel's activity flag,
last-activity entry and idle-prompt record, the only other mutation is the
invoking user's deactivate-cooldown entry, armed by the embedded cooldown
check.  The original claim's assertion that only the three channel fields
are modified is refuted by c10_counterexample. -/
theorem c10_deactivate_frame (userId channelId : String) (now : Int) (st : BotState) :
    (deactivate userId channelId now st).conversationHistory = st.conversationHistory ∧
    (∀ c, c ≠ channelId →
      (deactivate userId channelId now st).channelActivity c = st.channelActivity c ∧
      (deactivate userId channelId now st).lastActivity c = st.lastActivity c ∧
      (deactivate userId channelId now st).lastButtonMessage c = st.lastButtonMessage c) ∧
    (∀ k, k ≠ cdKey userId ("deactivate") →
      (deactivate userId channelId now st).commandCooldowns k = st.commandCooldowns k) := by
  unfold deactivate checkCooldown
  by_cases hb : now < (st.commandCooldowns (cdKey userId ("deactivate"))).getD 0
  · simp only [if_pos hb]
    exact ⟨rfl, fun c _ => ⟨rfl, rfl, rfl⟩, fun k _ => rfl⟩
  · simp only [if_neg hb]
    exact ⟨rfl, fun c hc => ⟨by simp [hc], by simp [hc], by simp [hc]⟩,
      fun k hk => by simp [hk]⟩

/-- Witness for c10_deactivate_frame at the empty state, a concrete other
channel and a concrete other cooldown key. -/
theorem c10_deactivate_frame_witness :
    (deactivate ("u") ("ch") 100 emptyBotState).conversationHistory
        = emptyBotState.conversationHistory ∧
    (deactivate ("u") ("ch") 100 emptyBotState).channelActivity ("other")
        = emptyBotState.channelActivity ("other") ∧
    (deactivate ("u") ("ch") 100 emptyBotState).commandCooldowns ("zz")
        = emptyBotState.commandCooldowns ("zz") :=
  ⟨(c10_deactivate_frame ("u") ("ch") 100 emptyBotState).1,
    ((c10_deactivate_frame ("u") ("ch") 100 emptyBotState).2.1 ("other") (by decide)).1,
    (c10_deactivate_frame ("u") ("ch") 100 emptyBotState).2.2 ("zz") (by decide)⟩

/-- C10 counterexample: deactivating from the empty state at time 100
creates the user's deactivate-cooldown entry, a mutation outside the
activity flag, the last-activity timestamp and the idle-prompt record
named by the claim. -/
theorem c10_counterexample :
    emptyBotState.commandCooldowns (cdKey ("u") ("deactivate")) = none ∧
    (deactivate ("u") ("ch") 100 emptyBotState).commandCooldowns
        (cdKey ("u") ("deactivate")) = some 130 := by decide

end ChatBot
